import Mathlib

/-!
Verification development for the patch container and wire codec of
src/libpc/pc_patch.c (pointcloud).

The C code is shallowly embedded: byte buffers are lists of UInt8, machine
integers are Nat (with explicit two-power wraparound where the C width
matters), and double-precision coordinate values are modelled as rationals
extended with signed infinities (type FVal), since the code only copies and
compares them.  External collaborators that are declared but not defined in
the repository sources (the point field accessors, the endian flipper, the
host endianness and the default capacity constant) are modelled from the
spec, either as explicit parameters of the definitions that use them or as
constants carrying a doc comment saying so.
-/

/-- Compression tag values, from the wkb layout comment in pc_patch.c:
0 = no compression, 1 = dimensional, 2 = GHT. -/
def PC_NONE : Nat := 0

/-- Dimensional compression tag (1), per the wkb layout comment. -/
def PC_DIMENSIONAL : Nat := 1

/-- GHT compression tag (2), per the wkb layout comment. -/
def PC_GHT : Nat := 2

/-- Modelled from the spec: PCPATCH_DEFAULT_MAXPOINTS is defined in a header
outside src/; the spec (section 4.3) describes it as a fixed default capacity
constant, e.g. 64 points.  No claim depends on its exact value. -/
def PCPATCH_DEFAULT_MAXPOINTS : Nat := 64

/-- Modelled from the spec: machine_endian() is defined outside src/; the
spec (section 4.5) says the endianness flag is 1 for little-endian (NDR) and
0 for big-endian (XDR), written machine-native on encode.  We model a
little-endian host. -/
def machine_endian : UInt8 := 1

/-- The value of the MAXFLOAT constant from math.h used by pc_patch.c to
reset bounds: the largest finite single-precision value
(2 to the 128 minus 2 to the 104), which is exactly representable as a
double and as a rational.  Note it is a finite value, not an infinity. -/
def MAXFLOAT : ℚ := 340282346638528859811704183484516925440

/-- Double values as the code observes them: finite values (rationals) plus
the two infinities.  The code itself only ever stores finite values in
bounds, but the spec speaks of plus and minus infinity, so the embedding
can state that claim. -/
inductive FVal where
  | negInf : FVal
  | fin (q : ℚ) : FVal
  | posInf : FVal
deriving DecidableEq

/-- Strict less-than on FVal, matching IEEE comparison on non-NaN doubles. -/
def FVal.ltb : FVal → FVal → Bool
  | .negInf, .negInf => false
  | .negInf, _ => true
  | .fin _, .negInf => false
  | .fin a, .fin b => decide (a < b)
  | .fin _, .posInf => true
  | .posInf, _ => false

/-- The patch bounds update "if (m > v) m = v" from pc_patch.c. -/
def fvalMin (a b : FVal) : FVal := if FVal.ltb b a then b else a

/-- The patch bounds update "if (m < v) m = v" from pc_patch.c. -/
def fvalMax (a b : FVal) : FVal := if FVal.ltb a b then b else a

/-- Error kinds named as in the spec (section 7); each pcerror call site in
pc_patch.c is mapped to the kind the spec assigns to it. -/
inductive PCError where
  | InvalidSchema : PCError
  | EmptyInput : PCError
  | NullArgument : PCError
  | SchemaMismatch : PCError
  | ReadOnlyViolation : PCError
  | CompressedViolation : PCError
  | SizeMismatch : PCError
  | UnsupportedCompression : PCError
deriving DecidableEq

/-- The external PCSCHEMA: pcid, per-point byte size, dimension count and
compression kind (as its numeric tag).  Pointer identity of schemas is
modelled as structural equality. -/
structure PCSCHEMA where
  pcid : Nat
  size : Nat
  ndims : Nat
  compression : Nat
deriving DecidableEq

/-- The external PCPOINT: a schema reference plus the raw record bytes. -/
structure PCPOINT where
  schema : PCSCHEMA
  data : List UInt8
deriving DecidableEq

/-- The PCPATCH structure of pc_patch.c. -/
structure PCPATCH where
  schema : PCSCHEMA
  readonly : Bool
  compressed : Bool
  npoints : Nat
  maxpoints : Nat
  datasize : Nat
  data : List UInt8
  xmin : FVal
  ymin : FVal
  xmax : FVal
  ymax : FVal
deriving DecidableEq

/-- Modelled from the spec: pc_point_get_x / pc_point_get_y are defined
outside src/; the spec describes them as typed field accessors extracting
the X and Y fields of a point record laid out per the schema.  Definitions
that need them take such an accessor as an explicit parameter. -/
abbrev GetF := PCSCHEMA → List UInt8 → ℚ

/-- Modelled from the spec: uncompressed_bytes_flip_endian is defined
outside src/; the spec says it flips byte order field-by-field per the
schema layout.  Definitions that need it take it as a parameter. -/
abbrev FlipF := PCSCHEMA → List UInt8 → Nat → List UInt8

/-- Byte of a buffer at an index; out-of-range reads (undefined behaviour
in C) are modelled as reading 0. -/
def byteAt (bs : List UInt8) (i : Nat) : Nat := (bs.getD i 0).toNat

/-- Little-endian uint32 read at an offset (the wkb_get_pcid,
wkb_get_compression, wkb_get_npoints helpers of the repository, modelled
from the wkb layout comment in pc_patch.c on a little-endian host). -/
def readU32 (bs : List UInt8) (off : Nat) : Nat :=
  byteAt bs off + 256 * byteAt bs (off + 1) + 65536 * byteAt bs (off + 2) +
    16777216 * byteAt bs (off + 3)

/-- Little-endian bytes of a uint32 value (memcpy of a uint32 on a
little-endian host). -/
def u32le (n : Nat) : List UInt8 :=
  [UInt8.ofNat (n % 256), UInt8.ofNat (n / 256 % 256),
   UInt8.ofNat (n / 65536 % 256), UInt8.ofNat (n / 16777216 % 256)]

/-- memcpy of src into buf at offset off (in-range writes preserve the
buffer length). -/
def writeBytes (buf : List UInt8) (off : Nat) (src : List UInt8) : List UInt8 :=
  buf.take off ++ src ++ buf.drop (off + src.length)

/-- Reading n bytes starting from a source buffer: bytes past the end of
the source (undefined behaviour in C) are modelled as 0. -/
def memBytes (src : List UInt8) (n : Nat) : List UInt8 :=
  (src ++ List.replicate n 0).take n

/-- size_t subtraction: wraps modulo 2 to the 64. -/
def sizetSub (a b : Nat) : Nat :=
  (a + 18446744073709551616 - b) % 18446744073709551616

/-- pc_patch_make: null or zero-size schema is rejected (InvalidSchema per
spec section 7); otherwise a fresh patch with a zeroed default-capacity
buffer and MAXFLOAT sentinel bounds. -/
def pc_patch_make : Option PCSCHEMA → Except PCError PCPATCH
  | none => Except.error PCError.InvalidSchema
  | some s =>
    if s.size = 0 then Except.error PCError.InvalidSchema
    else Except.ok
      { schema := s
        readonly := false
        compressed := false
        npoints := 0
        maxpoints := PCPATCH_DEFAULT_MAXPOINTS
        datasize := s.size * PCPATCH_DEFAULT_MAXPOINTS
        data := List.replicate (s.size * PCPATCH_DEFAULT_MAXPOINTS) 0
        xmin := FVal.fin MAXFLOAT
        ymin := FVal.fin MAXFLOAT
        xmax := FVal.fin (-MAXFLOAT)
        ymax := FVal.fin (-MAXFLOAT) }

/-- The buffer-doubling step of pc_patch_add_point: when npoints equals
maxpoints, maxpoints doubles, datasize becomes the new capacity in bytes
and the buffer is reallocated (fresh realloc bytes modelled as 0). -/
def growIfFull (c : PCPATCH) (sz : Nat) : PCPATCH :=
  if c.npoints = c.maxpoints then
    { c with maxpoints := 2 * c.maxpoints
             datasize := 2 * c.maxpoints * sz
             data := memBytes c.data (2 * c.maxpoints * sz) }
  else c

/-- The record copy of pc_patch_add_point: the point bytes are copied into
the slot at offset sz * npoints and npoints is incremented. -/
def pcDataAppend (c : PCPATCH) (sz : Nat) (p : PCPOINT) : PCPATCH :=
  { c with data := writeBytes c.data (sz * c.npoints) (memBytes p.data sz)
           npoints := c.npoints + 1 }

/-- The bounds update of pc_patch_add_point. -/
def pcBoundsUpdate (c : PCPATCH) (x y : ℚ) : PCPATCH :=
  { c with xmin := fvalMin c.xmin (FVal.fin x)
           ymin := fvalMin c.ymin (FVal.fin y)
           xmax := fvalMax c.xmax (FVal.fin x)
           ymax := fvalMax c.ymax (FVal.fin y) }

/-- The success path of pc_patch_add_point: grow if full, copy the record,
bump npoints, extend bounds with the point coordinates. -/
def addPointBody (gx gy : GetF) (c : PCPATCH) (p : PCPOINT) : PCPATCH :=
  pcBoundsUpdate (pcDataAppend (growIfFull c c.schema.size) c.schema.size p)
    (gx p.schema p.data) (gy p.schema p.data)

/-- pc_patch_add_point.  The source first rejects null arguments (vacuous
here since the embedding is typed), then mismatched pcids, then readonly
patches, then compressed patches with non-None schema compression; on the
success path it returns PC_SUCCESS after mutating the patch.  Modelled as
(success flag, resulting patch); failure paths return the patch unchanged
because the source mutates nothing before its guards. -/
def pc_patch_add_point (gx gy : GetF) (c : PCPATCH) (p : PCPOINT) : Bool × PCPATCH :=
  if c.schema.pcid ≠ p.schema.pcid then (false, c)
  else if c.readonly = true then (false, c)
  else if c.compressed = true ∧ c.schema.compression ≠ PC_NONE then (false, c)
  else (true, addPointBody gx gy c p)

/-- A sequence of pc_patch_add_point calls, keeping each resulting patch. -/
def pc_patch_add_all (gx gy : GetF) (c : PCPATCH) (ps : List PCPOINT) : PCPATCH :=
  ps.foldl (fun a p => (pc_patch_add_point gx gy a p).2) c

/-- Result of pc_patch_from_points: the source dereferences the first array
entry without a null check, so a null first entry is a crash (nullDeref),
distinct from the error returns. -/
inductive FromPointsResult where
  | nullDeref : FromPointsResult
  | error (e : PCError) : FromPointsResult
  | ok (warnings : Nat) (patch : PCPATCH) : FromPointsResult
deriving DecidableEq

/-- The patch produced by a from-points result, when one was produced. -/
def FromPointsResult.patchOf : FromPointsResult → Option PCPATCH
  | .ok _ p => some p
  | _ => none

/-- The copy loop of pc_patch_from_points: null entries are skipped with a
warning, a non-null entry whose schema differs from s aborts with NULL,
otherwise the record is copied at the write cursor (np copies so far). -/
def fpLoop (s : PCSCHEMA) :
    List (Option PCPOINT) → List UInt8 → Nat → Nat → Option (List UInt8 × Nat × Nat)
  | [], buf, np, warns => some (buf, np, warns)
  | none :: rest, buf, np, warns => fpLoop s rest buf np (warns + 1)
  | some p :: rest, buf, np, warns =>
    if p.schema ≠ s then none
    else fpLoop s rest (writeBytes buf (np * s.size) (memBytes p.data s.size))
      (np + 1) warns

/-- pc_patch_from_points.  Zero-length input is EmptyInput; the schema is
taken from the FIRST entry with no null check (null first entry crashes);
zero point size is InvalidSchema; then the copy loop runs over the whole
array.  Note the source never assigns datasize (the struct is calloc-zeroed,
so datasize stays 0) and never updates bounds in the loop (they stay at the
MAXFLOAT sentinel). -/
def pc_patch_from_points (pts : List (Option PCPOINT)) : FromPointsResult :=
  match pts with
  | [] => FromPointsResult.error PCError.EmptyInput
  | none :: _ => FromPointsResult.nullDeref
  | some p0 :: rest =>
    if p0.schema.size = 0 then FromPointsResult.error PCError.InvalidSchema
    else
      match fpLoop p0.schema (some p0 :: rest)
          (List.replicate (p0.schema.size * (some p0 :: rest).length) 0) 0 0 with
      | none => FromPointsResult.error PCError.SchemaMismatch
      | some (buf, np, warns) =>
        FromPointsResult.ok warns
          { schema := p0.schema
            readonly := false
            compressed := false
            npoints := np
            maxpoints := (some p0 :: rest).length
            datasize := 0
            data := buf
            xmin := FVal.fin MAXFLOAT
            ymin := FVal.fin MAXFLOAT
            xmax := FVal.fin (-MAXFLOAT)
            ymax := FVal.fin (-MAXFLOAT) }

/-- pc_patch_clone: a byte-for-byte copy of the struct (all flags included)
whose data field is replaced by a freshly allocated copy of datasize bytes
of the source buffer. -/
def pc_patch_clone (patch : PCPATCH) : PCPATCH :=
  { patch with data := memBytes patch.data patch.datasize }

/-- pc_patch_compress: an already-compressed patch is cloned; otherwise
None compression clones and sets the compressed flag, and the GHT,
Dimensional and unknown branches all fail (pcerror then NULL). -/
def pc_patch_compress (patch : PCPATCH) : Option PCPATCH :=
  if patch.compressed = true then some (pc_patch_clone patch)
  else if patch.schema.compression = PC_NONE then
    some { pc_patch_clone patch with compressed := true }
  else none

/-- One iteration of the extent loop of
pc_patch_compute_extent_uncompressed: point i is read at offset i * size of
the buffer and the bounds are extended with its X and Y. -/
def extentStep (gx gy : GetF) (s : PCSCHEMA) (buf : List UInt8)
    (c : PCPATCH) (i : Nat) : PCPATCH :=
  pcBoundsUpdate c (gx s ((buf.drop (i * s.size)).take s.size))
    (gy s ((buf.drop (i * s.size)).take s.size))

/-- pc_patch_compute_extent_uncompressed: bounds are reset to the MAXFLOAT
sentinel, then every point record in the buffer extends them. -/
def pc_patch_compute_extent_uncompressed (gx gy : GetF) (patch : PCPATCH) : PCPATCH :=
  (List.range patch.npoints).foldl (extentStep gx gy patch.schema patch.data)
    { patch with xmin := FVal.fin MAXFLOAT
                 ymin := FVal.fin MAXFLOAT
                 xmax := FVal.fin (-MAXFLOAT)
                 ymax := FVal.fin (-MAXFLOAT) }

/-- pc_patch_compute_extent: only None compression is supported; GHT,
Dimensional and unknown kinds return PC_FAILURE (modelled as none). -/
def pc_patch_compute_extent (gx gy : GetF) (patch : PCPATCH) : Option PCPATCH :=
  if patch.schema.compression = PC_NONE then
    some (pc_patch_compute_extent_uncompressed gx gy patch)
  else none

/-- The patch built by pc_patch_from_wkb_uncompressed before the extent
computation: npoints is read from offset 9; the data region is byte-flipped
when the buffer endian flag differs from the host, else copied; the patch
is marked compressed with datasize = wkbsize - 13 (size_t arithmetic).  The
struct is calloc-zeroed, so readonly is false and the bounds start at 0. -/
def wkbPatchRaw (flip : FlipF) (s : PCSCHEMA) (wkb : List UInt8) : PCPATCH :=
  { schema := s
    readonly := false
    compressed := true
    npoints := readU32 wkb 9
    maxpoints := readU32 wkb 9
    datasize := sizetSub wkb.length 13
    data :=
      if wkb.getD 0 0 ≠ machine_endian then flip s (wkb.drop 13) (readU32 wkb 9)
      else memBytes (wkb.drop 13) (readU32 wkb 9 * s.size)
    xmin := FVal.fin 0
    ymin := FVal.fin 0
    xmax := FVal.fin 0
    ymax := FVal.fin 0 }

/-- pc_patch_from_wkb_uncompressed.  Guards: the wkb compression tag at
offset 5 must be PC_NONE (its pcerror is a compression disagreement, mapped
to SchemaMismatch), and wkbsize - 13 (size_t arithmetic) must equal
size * npoints with npoints read at offset 9 (SizeMismatch).  Then the
patch is built and its extent computed; a failing extent computation emits
an error (spec section 4.1: unsupported for this compression kind) but the
source still returns the patch.
Result: (emitted errors, returned patch or NULL). -/
def pc_patch_from_wkb_uncompressed (gx gy : GetF) (flip : FlipF)
    (s : PCSCHEMA) (wkb : List UInt8) : List PCError × Option PCPATCH :=
  if readU32 wkb 5 ≠ PC_NONE then ([PCError.SchemaMismatch], none)
  else if sizetSub wkb.length 13 ≠ s.size * readU32 wkb 9 then
    ([PCError.SizeMismatch], none)
  else
    match pc_patch_compute_extent gx gy (wkbPatchRaw flip s wkb) with
    | some p2 => ([], some p2)
    | none => ([PCError.UnsupportedCompression], some (wkbPatchRaw flip s wkb))

/-- pc_patch_from_wkb.  A zero-length buffer and a compression tag or pcid
disagreeing with the schema each emit a pcerror, but the source has no
return after these calls, so control FALLS THROUGH into the dispatch on the
wkb compression tag (None decodes, GHT and Dimensional and unknown tags
fail).  Result: (emitted errors in source order, returned patch or NULL). -/
def pc_patch_from_wkb (gx gy : GetF) (flip : FlipF)
    (s : PCSCHEMA) (wkb : List UInt8) : List PCError × Option PCPATCH :=
  let errs0 := if wkb.length = 0 then [PCError.EmptyInput] else []
  let pcid := readU32 wkb 1
  let compression := readU32 wkb 5
  let errs1 := errs0 ++ if compression ≠ s.compression then [PCError.SchemaMismatch] else []
  let errs2 := errs1 ++ if pcid ≠ s.pcid then [PCError.SchemaMismatch] else []
  if compression = PC_NONE then
    let r := pc_patch_from_wkb_uncompressed gx gy flip s wkb
    (errs2 ++ r.1, r.2)
  else (errs2 ++ [PCError.UnsupportedCompression], none)

/-- pc_patch_to_wkb: allocates 1 + 4 + 4 + datasize zeroed bytes, writes
the endian flag at offset 0, the pcid at offset 1, and the data at offset 5
(nothing is ever written to the last 4 allocated bytes). -/
def pc_patch_to_wkb (patch : PCPATCH) : List UInt8 :=
  writeBytes
    (writeBytes
      (writeBytes (List.replicate (1 + 4 + 4 + patch.datasize) 0) 0 [machine_endian])
      1 (u32le patch.schema.pcid))
    5 (memBytes patch.data patch.datasize)

/-- A concrete schema: pcid 1, 8-byte points, 2 dimensions, None compression. -/
def s1 : PCSCHEMA := { pcid := 1, size := 8, ndims := 2, compression := 0 }

/-- A concrete schema with a different pcid. -/
def s2 : PCSCHEMA := { pcid := 2, size := 8, ndims := 2, compression := 0 }

/-- A concrete point on s1. -/
def pt1 : PCPOINT := { schema := s1, data := [42, 0, 0, 0, 0, 0, 0, 0] }

/-- Another concrete point on s1. -/
def pt1b : PCPOINT := { schema := s1, data := [9, 9, 9, 9, 9, 9, 9, 9] }

/-- A concrete point on s2 (different pcid from s1). -/
def pt2 : PCPOINT := { schema := s2, data := List.replicate 8 0 }

/-- A concrete X accessor returning 0 for every record. -/
def gx0 : GetF := fun _ _ => 0

/-- A concrete Y accessor returning 0 for every record. -/
def gy0 : GetF := fun _ _ => 0

/-- A concrete accessor returning a coordinate beyond MAXFLOAT (the value
is twice MAXFLOAT, representable as a double but exceeding the float
sentinel). -/
def gxBig : GetF := fun _ _ => 680564693277057719623408366969033850880

/-- A concrete endian flipper (identity; never exercised on the
little-endian buffers used below). -/
def flip0 : FlipF := fun _ d _ => d

/-- A wkb buffer whose pcid field (2) disagrees with schema s1 (pcid 1) but
whose compression tag (0) and sizes are otherwise valid: endian 1, pcid 2,
compression 0, npoints 1, then 8 data bytes. -/
def wkbMismatch : List UInt8 :=
  [1, 2, 0, 0, 0, 0, 0, 0, 0, 1, 0, 0, 0] ++ List.replicate 8 9

/-- A fully consistent wkb buffer for schema s1: endian 1, pcid 1,
compression 0, npoints 1, then 8 data bytes. -/
def wkbGood : List UInt8 :=
  [1, 1, 0, 0, 0, 0, 0, 0, 0, 1, 0, 0, 0] ++ List.replicate 8 7

/-- A concrete readonly patch (a zero-copy view in the source). -/
def patchRO : PCPATCH :=
  { schema := s1, readonly := true, compressed := false, npoints := 1,
    maxpoints := 1, datasize := 8, data := List.replicate 8 5,
    xmin := FVal.fin 0, ymin := FVal.fin 0, xmax := FVal.fin 0, ymax := FVal.fin 0 }

/-- A concrete owned uncompressed patch on s1. -/
def patchU : PCPATCH :=
  { schema := s1, readonly := false, compressed := false, npoints := 1,
    maxpoints := 1, datasize := 8, data := [1, 2, 3, 4, 5, 6, 7, 8],
    xmin := FVal.fin 0, ymin := FVal.fin 0, xmax := FVal.fin 0, ymax := FVal.fin 0 }

/-- The patch pc_patch_make produces for schema s1. -/
def c0w : PCPATCH :=
  { schema := s1, readonly := false, compressed := false, npoints := 0,
    maxpoints := 64, datasize := 512, data := List.replicate 512 0,
    xmin := FVal.fin MAXFLOAT, ymin := FVal.fin MAXFLOAT,
    xmax := FVal.fin (-MAXFLOAT), ymax := FVal.fin (-MAXFLOAT) }

/-- Helper: the bounds sentinel satisfies min greater than max. -/
theorem maxfloat_sentinel_lt : FVal.ltb (FVal.fin (-MAXFLOAT)) (FVal.fin MAXFLOAT) = true := by
  decide

/-- Helper: the code update "if (m > v) m = v" computes the minimum on
finite values. -/
theorem fvalMin_fin (a b : ℚ) : fvalMin (FVal.fin a) (FVal.fin b) = FVal.fin (min a b) := by
  by_cases h : b < a
  · simp [fvalMin, FVal.ltb, h, min_eq_right (le_of_lt h)]
  · simp [fvalMin, FVal.ltb, h, min_eq_left (not_lt.mp h)]

/-- Helper: the code update "if (m < v) m = v" computes the maximum on
finite values. -/
theorem fvalMax_fin (a b : ℚ) : fvalMax (FVal.fin a) (FVal.fin b) = FVal.fin (max a b) := by
  by_cases h : a < b
  · simp [fvalMax, FVal.ltb, h, max_eq_right (le_of_lt h)]
  · simp [fvalMax, FVal.ltb, h, max_eq_left (not_lt.mp h)]

/-- Helper: memBytes always produces exactly n bytes. -/
theorem memBytes_length (src : List UInt8) (n : Nat) : (memBytes src n).length = n := by
  simp [memBytes]

/-- Helper: a copy of the whole buffer is the buffer. -/
theorem memBytes_of_length (src : List UInt8) (n : Nat) (h : src.length = n) :
    memBytes src n = src := by
  subst h
  simp [memBytes, List.take_left]

/-- Helper: a whole-buffer copy of a copy is the copy itself. -/
theorem memBytes_idem (src : List UInt8) (n : Nat) :
    memBytes (memBytes src n) n = memBytes src n :=
  memBytes_of_length _ _ (memBytes_length src n)

/-- Helper: buffer growth does not touch bounds, flags or schema. -/
theorem growIfFull_proj (c : PCPATCH) (sz : Nat) :
    (growIfFull c sz).xmin = c.xmin ∧ (growIfFull c sz).ymin = c.ymin ∧
    (growIfFull c sz).xmax = c.xmax ∧ (growIfFull c sz).ymax = c.ymax ∧
    (growIfFull c sz).readonly = c.readonly ∧
    (growIfFull c sz).compressed = c.compressed ∧
    (growIfFull c sz).schema = c.schema ∧
    (growIfFull c sz).npoints = c.npoints := by
  unfold growIfFull
  split <;> exact ⟨rfl, rfl, rfl, rfl, rfl, rfl, rfl, rfl⟩

/-- Helper: what the success path of add_point does to bounds, flags and
schema. -/
theorem addPointBody_proj (gx gy : GetF) (c : PCPATCH) (p : PCPOINT) :
    (addPointBody gx gy c p).xmin = fvalMin c.xmin (FVal.fin (gx p.schema p.data)) ∧
    (addPointBody gx gy c p).ymin = fvalMin c.ymin (FVal.fin (gy p.schema p.data)) ∧
    (addPointBody gx gy c p).xmax = fvalMax c.xmax (FVal.fin (gx p.schema p.data)) ∧
    (addPointBody gx gy c p).ymax = fvalMax c.ymax (FVal.fin (gy p.schema p.data)) ∧
    (addPointBody gx gy c p).readonly = c.readonly ∧
    (addPointBody gx gy c p).compressed = c.compressed ∧
    (addPointBody gx gy c p).schema = c.schema ∧
    (addPointBody gx gy c p).npoints = (growIfFull c c.schema.size).npoints + 1 := by
  obtain ⟨h1, h2, h3, h4, h5, h6, h7, h8⟩ := growIfFull_proj c c.schema.size
  unfold addPointBody pcBoundsUpdate pcDataAppend
  exact ⟨by rw [h1], by rw [h2], by rw [h3], by rw [h4], by rw [h5], by rw [h6],
    by rw [h7], rfl⟩

/-- Helper: when the guards pass, add_point succeeds with the body result. -/
theorem add_point_success (gx gy : GetF) (c : PCPATCH) (p : PCPOINT)
    (h1 : c.schema.pcid = p.schema.pcid) (h2 : c.readonly = false)
    (h3 : c.compressed = false) :
    pc_patch_add_point gx gy c p = (true, addPointBody gx gy c p) := by
  unfold pc_patch_add_point
  rw [if_neg (by simp [h1]), if_neg (by simp [h2]), if_neg (by simp [h3])]

/-- Helper: a run of successful add_point calls folds the bound updates over
the point coordinates and preserves the flags and the schema. -/
theorem add_all_bounds (gx gy : GetF) :
    ∀ (ps : List PCPOINT) (c : PCPATCH), c.readonly = false → c.compressed = false →
    (∀ p ∈ ps, p.schema.pcid = c.schema.pcid) →
    (pc_patch_add_all gx gy c ps).xmin =
      ps.foldl (fun b p => fvalMin b (FVal.fin (gx p.schema p.data))) c.xmin ∧
    (pc_patch_add_all gx gy c ps).ymin =
      ps.foldl (fun b p => fvalMin b (FVal.fin (gy p.schema p.data))) c.ymin ∧
    (pc_patch_add_all gx gy c ps).xmax =
      ps.foldl (fun b p => fvalMax b (FVal.fin (gx p.schema p.data))) c.xmax ∧
    (pc_patch_add_all gx gy c ps).ymax =
      ps.foldl (fun b p => fvalMax b (FVal.fin (gy p.schema p.data))) c.ymax := by
  intro ps
  induction ps with
  | nil => intro c h1 h2 h3; exact ⟨rfl, rfl, rfl, rfl⟩
  | cons p rest ih =>
    intro c h1 h2 h3
    have hp := h3 p (List.mem_cons_self _ _)
    have hadd := add_point_success gx gy c p hp.symm h1 h2
    obtain ⟨e1, e2, e3, e4, e5, e6, e7, _⟩ := addPointBody_proj gx gy c p
    have hrest := ih (addPointBody gx gy c p) (by rw [e5, h1]) (by rw [e6, h2])
      (by intro q hq; rw [e7]; exact h3 q (List.mem_cons_of_mem _ hq))
    unfold pc_patch_add_all at hrest ⊢
    simp only [List.foldl_cons, hadd]
    rw [e1, e2, e3, e4] at hrest
    exact hrest

/-- Helper: on a finite start value the folded min updates stay finite and
compute a rational fold. -/
theorem foldl_fvalMin_fin (f : PCPOINT → ℚ) :
    ∀ (ps : List PCPOINT) (a : ℚ),
    ps.foldl (fun b p => fvalMin b (FVal.fin (f p))) (FVal.fin a) =
      FVal.fin (ps.foldl (fun q p => min q (f p)) a) := by
  intro ps
  induction ps with
  | nil => intro a; rfl
  | cons p rest ih =>
    intro a
    simp only [List.foldl_cons, fvalMin_fin]
    exact ih _

/-- Helper: on a finite start value the folded max updates stay finite and
compute a rational fold. -/
theorem foldl_fvalMax_fin (f : PCPOINT → ℚ) :
    ∀ (ps : List PCPOINT) (a : ℚ),
    ps.foldl (fun b p => fvalMax b (FVal.fin (f p))) (FVal.fin a) =
      FVal.fin (ps.foldl (fun q p => max q (f p)) a) := by
  intro ps
  induction ps with
  | nil => intro a; rfl
  | cons p rest ih =>
    intro a
    simp only [List.foldl_cons, fvalMax_fin]
    exact ih _

/-- Helper: the extent loop only changes bounds. -/
theorem extent_foldl_proj (gx gy : GetF) (s : PCSCHEMA) (buf : List UInt8) :
    ∀ (l : List Nat) (c : PCPATCH),
    (l.foldl (extentStep gx gy s buf) c).compressed = c.compressed ∧
    (l.foldl (extentStep gx gy s buf) c).datasize = c.datasize ∧
    (l.foldl (extentStep gx gy s buf) c).npoints = c.npoints ∧
    (l.foldl (extentStep gx gy s buf) c).readonly = c.readonly ∧
    (l.foldl (extentStep gx gy s buf) c).schema = c.schema ∧
    (l.foldl (extentStep gx gy s buf) c).data = c.data := by
  intro l
  induction l with
  | nil => intro c; exact ⟨rfl, rfl, rfl, rfl, rfl, rfl⟩
  | cons i rest ih =>
    intro c
    have h := ih (extentStep gx gy s buf c i)
    simp only [List.foldl_cons]
    exact h

/-- Helper: recomputing the extent only changes bounds. -/
theorem extent_uncompressed_proj (gx gy : GetF) (q : PCPATCH) :
    (pc_patch_compute_extent_uncompressed gx gy q).compressed = q.compressed ∧
    (pc_patch_compute_extent_uncompressed gx gy q).datasize = q.datasize ∧
    (pc_patch_compute_extent_uncompressed gx gy q).npoints = q.npoints ∧
    (pc_patch_compute_extent_uncompressed gx gy q).readonly = q.readonly ∧
    (pc_patch_compute_extent_uncompressed gx gy q).schema = q.schema ∧
    (pc_patch_compute_extent_uncompressed gx gy q).data = q.data := by
  unfold pc_patch_compute_extent_uncompressed
  exact extent_foldl_proj gx gy q.schema q.data (List.range q.npoints) _

/-- Helper: size_t subtraction agrees with truncated subtraction for
buffer lengths below 2 to the 64. -/
theorem sizetSub_eq (a : Nat) (h13 : 13 ≤ a) (h64 : a < 18446744073709551616) :
    sizetSub a 13 = a - 13 := by
  unfold sizetSub
  omega

/-- Helper: dropping the leading n elements of n + m zeros leaves m zeros. -/
theorem drop_replicate_zero (n m : Nat) :
    (List.replicate (n + m) (0 : UInt8)).drop n = List.replicate m 0 := by
  induction n with
  | zero => simp
  | succ k ih =>
    rw [show k + 1 + m = (k + m) + 1 from by omega, List.replicate_succ,
      List.drop_succ_cons, ih]

/-- Helper: the exact shape of the encoded buffer: endian flag, pcid bytes,
datasize data bytes, then the four zero bytes that were allocated for the
compression tag but never written. -/
theorem to_wkb_eq (p : PCPATCH) : pc_patch_to_wkb p =
    machine_endian :: (u32le p.schema.pcid ++ (memBytes p.data p.datasize ++ [0, 0, 0, 0])) := by
  have hd : (memBytes p.data p.datasize).length = p.datasize := memBytes_length _ _
  have hz : List.replicate (1 + 4 + 4 + p.datasize) (0 : UInt8)
      = 0 :: 0 :: 0 :: 0 :: 0 :: List.replicate (p.datasize + 4) 0 := by
    rw [show 1 + 4 + 4 + p.datasize = 5 + (p.datasize + 4) from by omega,
      List.replicate_add]
    rfl
  have s1 : writeBytes (0 :: 0 :: 0 :: 0 :: 0 :: List.replicate (p.datasize + 4) (0 : UInt8))
      0 [machine_endian]
      = machine_endian :: 0 :: 0 :: 0 :: 0 :: List.replicate (p.datasize + 4) 0 := rfl
  have s2 : writeBytes
      (machine_endian :: 0 :: 0 :: 0 :: 0 :: List.replicate (p.datasize + 4) (0 : UInt8))
      1 (u32le p.schema.pcid)
      = machine_endian :: (u32le p.schema.pcid ++ List.replicate (p.datasize + 4) 0) := rfl
  have h5 : (machine_endian ::
        (u32le p.schema.pcid ++ List.replicate (p.datasize + 4) (0 : UInt8))).drop
        (5 + p.datasize) = [0, 0, 0, 0] := by
    rw [← List.drop_drop]
    show (List.replicate (p.datasize + 4) (0 : UInt8)).drop p.datasize = [0, 0, 0, 0]
    rw [drop_replicate_zero]
    rfl
  have s3 : writeBytes
      (machine_endian :: (u32le p.schema.pcid ++ List.replicate (p.datasize + 4) (0 : UInt8)))
      5 (memBytes p.data p.datasize)
      = machine_endian :: (u32le p.schema.pcid ++ (memBytes p.data p.datasize ++ [0, 0, 0, 0])) := by
    unfold writeBytes
    rw [hd, h5]
    rfl
  unfold pc_patch_to_wkb
  rw [hz, s1, s2, s3]

/-- Claim C10 (confirmed): the encoded buffer has total length
1 + 4 + 4 + datasize, the point data is copied starting at offset 5, the
last 4 bytes of the output are always zero, and neither a compression tag
nor a point count is ever written (the bytes after the data are exactly the
zero-initialized remainder of the allocation). -/
theorem C10_to_wkb_layout (p : PCPATCH) :
    (pc_patch_to_wkb p).length = 1 + 4 + 4 + p.datasize ∧
    pc_patch_to_wkb p =
      machine_endian :: (u32le p.schema.pcid ++ (memBytes p.data p.datasize ++ [0, 0, 0, 0])) ∧
    (pc_patch_to_wkb p).drop (5 + p.datasize) = [0, 0, 0, 0] := by
  refine ⟨?_, to_wkb_eq p, ?_⟩
  · rw [to_wkb_eq p]
    simp [u32le, memBytes_length]
    omega
  · rw [to_wkb_eq p]
    rw [← List.drop_drop]
    show (memBytes p.data p.datasize ++ ([0, 0, 0, 0] : List UInt8)).drop p.datasize
      = ([0, 0, 0, 0] : List UInt8)
    have h := List.drop_left (memBytes p.data p.datasize) ([0, 0, 0, 0] : List UInt8)
    rw [memBytes_length] at h
    exact h

/-- Helper: when every non-null entry carries schema s, the copy loop
succeeds, counting one copied point per non-null entry and one warning per
null entry. -/
theorem fpLoop_uniform (s : PCSCHEMA) :
    ∀ (l : List (Option PCPOINT)) (buf : List UInt8) (np w : Nat),
    (∀ q ∈ l, ∀ p, q = some p → p.schema = s) →
    ∃ bufE, fpLoop s l buf np w =
      some (bufE, np + (l.filterMap id).length, w + l.count none) := by
  intro l
  induction l with
  | nil => intro buf np w _; exact ⟨buf, by simp [fpLoop]⟩
  | cons q rest ih =>
    intro buf np w h
    match q with
    | none =>
      obtain ⟨bufE, hE⟩ := ih buf np (w + 1)
        (fun q hq => h q (List.mem_cons_of_mem _ hq))
      refine ⟨bufE, ?_⟩
      rw [show fpLoop s (none :: rest) buf np w = fpLoop s rest buf np (w + 1) from rfl, hE]
      simp [List.count_cons]
      omega
    | some p =>
      have hps : p.schema = s := h (some p) (List.mem_cons_self _ _) p rfl
      obtain ⟨bufE, hE⟩ := ih
        (writeBytes buf (np * s.size) (memBytes p.data s.size)) (np + 1) w
        (fun q hq => h q (List.mem_cons_of_mem _ hq))
      refine ⟨bufE, ?_⟩
      rw [show fpLoop s (some p :: rest) buf np w
          = if p.schema ≠ s then none
            else fpLoop s rest (writeBytes buf (np * s.size) (memBytes p.data s.size))
              (np + 1) w from rfl]
      rw [if_neg (by simp [hps]), hE]
      simp [List.count_cons]
      omega

/-- Helper: a non-null entry with a different schema makes the copy loop
fail. -/
theorem fpLoop_mismatch (s : PCSCHEMA) :
    ∀ (l : List (Option PCPOINT)) (buf : List UInt8) (np w : Nat),
    (∃ p, some p ∈ l ∧ p.schema ≠ s) → fpLoop s l buf np w = none := by
  intro l
  induction l with
  | nil =>
    intro buf np w h
    obtain ⟨p, hp, _⟩ := h
    simp at hp
  | cons q rest ih =>
    intro buf np w h
    obtain ⟨p, hp, hne⟩ := h
    match q with
    | none =>
      rw [show fpLoop s (none :: rest) buf np w = fpLoop s rest buf np (w + 1) from rfl]
      apply ih
      refine ⟨p, ?_, hne⟩
      rcases List.mem_cons.mp hp with h1 | h1
      · exact absurd h1 (by simp)
      · exact h1
    | some p1 =>
      by_cases hq : p1.schema = s
      · rw [show fpLoop s (some p1 :: rest) buf np w
            = if p1.schema ≠ s then none
              else fpLoop s rest (writeBytes buf (np * s.size) (memBytes p1.data s.size))
                (np + 1) w from rfl]
        rw [if_neg (by simp [hq])]
        apply ih
        refine ⟨p, ?_, hne⟩
        rcases List.mem_cons.mp hp with h1 | h1
        · exfalso
          apply hne
          rw [Option.some_inj.mp h1]
          exact hq
        · exact h1
      · rw [show fpLoop s (some p1 :: rest) buf np w
            = if p1.schema ≠ s then none
              else fpLoop s rest (writeBytes buf (np * s.size) (memBytes p1.data s.size))
                (np + 1) w from rfl]
        rw [if_pos hq]

/-- Helper: non-null entries plus null entries account for the whole
input. -/
theorem filterMap_count_length (l : List (Option PCPOINT)) :
    (l.filterMap id).length + l.count none = l.length := by
  induction l with
  | nil => rfl
  | cons q rest ih =>
    cases q with
    | none => simp [List.count_cons]; omega
    | some p => simp [List.count_cons, ih]; omega

/-- Claim C3 (corrected): clone duplicates the struct byte for byte,
including the readonly flag (it is NOT cleared), while replacing the data
field with a freshly allocated copy of datasize bytes of the source buffer;
every other field equals the source field. -/
theorem C3_clone_spec (p : PCPATCH) :
    (pc_patch_clone p).readonly = p.readonly ∧
    (pc_patch_clone p).compressed = p.compressed ∧
    (pc_patch_clone p).npoints = p.npoints ∧
    (pc_patch_clone p).maxpoints = p.maxpoints ∧
    (pc_patch_clone p).datasize = p.datasize ∧
    (pc_patch_clone p).schema = p.schema ∧
    (pc_patch_clone p).xmin = p.xmin ∧ (pc_patch_clone p).ymin = p.ymin ∧
    (pc_patch_clone p).xmax = p.xmax ∧ (pc_patch_clone p).ymax = p.ymax ∧
    (pc_patch_clone p).data = memBytes p.data p.datasize ∧
    (pc_patch_clone p).data.length = p.datasize :=
  ⟨rfl, rfl, rfl, rfl, rfl, rfl, rfl, rfl, rfl, rfl, rfl, memBytes_length _ _⟩

/-- Counterexample to claim C3 as stated: cloning a readonly patch yields a
clone whose readonly flag is true, not false. -/
theorem C3_cex : patchRO.readonly = true ∧ (pc_patch_clone patchRO).readonly = true :=
  ⟨rfl, rfl⟩

/-- Claim C8 (confirmed): add_point on a point whose schema pcid differs
from the patch schema pcid fails and returns the patch unchanged (the
source mutates nothing before this guard). -/
theorem C8_add_point_pcid_mismatch (gx gy : GetF) (c : PCPATCH) (p : PCPOINT)
    (h : c.schema.pcid ≠ p.schema.pcid) :
    pc_patch_add_point gx gy c p = (false, c) := by
  unfold pc_patch_add_point
  rw [if_pos h]

/-- Witness for C8 at a concrete patch and point with pcids 1 and 2. -/
theorem C8_witness :
    patchU.schema.pcid ≠ pt2.schema.pcid ∧
    pc_patch_add_point gx0 gy0 patchU pt2 = (false, patchU) :=
  ⟨by decide, C8_add_point_pcid_mismatch gx0 gy0 patchU pt2 (by decide)⟩

/-- Claim C9 (confirmed): on an uncompressed patch with None schema
compression, compress yields a clone marked compressed; compressing again
returns a clone of that, with identical npoints, data bytes and bounds, so
compress is idempotent and compress of an already-compressed patch is a
clone. -/
theorem C9_compress_idempotent (p : PCPATCH)
    (h1 : p.compressed = false) (h2 : p.schema.compression = PC_NONE) :
    ∃ q1 q2, pc_patch_compress p = some q1 ∧ pc_patch_compress q1 = some q2 ∧
      q2 = pc_patch_clone q1 ∧ q1.compressed = true ∧
      q2.npoints = q1.npoints ∧ q2.data = q1.data ∧
      q2.xmin = q1.xmin ∧ q2.ymin = q1.ymin ∧ q2.xmax = q1.xmax ∧ q2.ymax = q1.ymax := by
  have hc1 : pc_patch_compress p = some { pc_patch_clone p with compressed := true } := by
    unfold pc_patch_compress
    rw [if_neg (by simp [h1]), if_pos h2]
  have hc2 : pc_patch_compress { pc_patch_clone p with compressed := true }
      = some (pc_patch_clone { pc_patch_clone p with compressed := true }) := by
    unfold pc_patch_compress
    rw [if_pos rfl]
  refine ⟨_, _, hc1, hc2, rfl, rfl, rfl, ?_, rfl, rfl, rfl, rfl⟩
  show memBytes (memBytes p.data p.datasize) p.datasize = memBytes p.data p.datasize
  exact memBytes_idem _ _

/-- Witness for C9 at a concrete uncompressed patch. -/
theorem C9_witness :
    ∃ q1 q2, pc_patch_compress patchU = some q1 ∧ pc_patch_compress q1 = some q2 ∧
      q2 = pc_patch_clone q1 ∧ q1.compressed = true ∧
      q2.npoints = q1.npoints ∧ q2.data = q1.data ∧
      q2.xmin = q1.xmin ∧ q2.ymin = q1.ymin ∧ q2.xmax = q1.xmax ∧ q2.ymax = q1.ymax :=
  C9_compress_idempotent patchU rfl rfl

/-- Claim C5 (corrected): resetting bounds, both in pc_patch_make and in
the reset performed by the extent recomputation (observed here on a patch
with zero points, for which the reset is the final state), sets
xmin = ymin = MAXFLOAT and xmax = ymax = -MAXFLOAT: a large FINITE
single-precision sentinel, not plus and minus infinity; the sentinel does
satisfy xmin greater than xmax, signalling that no points are present. -/
theorem C5_reset_bounds (gx gy : GetF) (s : PCSCHEMA) (c : PCPATCH)
    (hs : s.size ≠ 0) (hc : c.npoints = 0) :
    (∃ p, pc_patch_make (some s) = Except.ok p ∧
      p.xmin = FVal.fin MAXFLOAT ∧ p.ymin = FVal.fin MAXFLOAT ∧
      p.xmax = FVal.fin (-MAXFLOAT) ∧ p.ymax = FVal.fin (-MAXFLOAT) ∧
      FVal.ltb p.xmax p.xmin = true) ∧
    ((pc_patch_compute_extent_uncompressed gx gy c).xmin = FVal.fin MAXFLOAT ∧
     (pc_patch_compute_extent_uncompressed gx gy c).ymin = FVal.fin MAXFLOAT ∧
     (pc_patch_compute_extent_uncompressed gx gy c).xmax = FVal.fin (-MAXFLOAT) ∧
     (pc_patch_compute_extent_uncompressed gx gy c).ymax = FVal.fin (-MAXFLOAT)) := by
  constructor
  · have hmk : pc_patch_make (some s) = Except.ok
        { schema := s
          readonly := false
          compressed := false
          npoints := 0
          maxpoints := PCPATCH_DEFAULT_MAXPOINTS
          datasize := s.size * PCPATCH_DEFAULT_MAXPOINTS
          data := List.replicate (s.size * PCPATCH_DEFAULT_MAXPOINTS) 0
          xmin := FVal.fin MAXFLOAT
          ymin := FVal.fin MAXFLOAT
          xmax := FVal.fin (-MAXFLOAT)
          ymax := FVal.fin (-MAXFLOAT) } := by
      simp only [pc_patch_make]
      rw [if_neg hs]
    exact ⟨_, hmk, rfl, rfl, rfl, rfl, maxfloat_sentinel_lt⟩
  · unfold pc_patch_compute_extent_uncompressed
    rw [hc]
    exact ⟨rfl, rfl, rfl, rfl⟩

/-- Counterexample to claim C5 as stated: the value stored by make is the
finite MAXFLOAT, not plus infinity. -/
theorem C5_cex :
    (pc_patch_make (some s1)).toOption.map PCPATCH.xmin = some (FVal.fin MAXFLOAT) ∧
    FVal.fin MAXFLOAT ≠ FVal.posInf :=
  ⟨rfl, by decide⟩

/-- Witness for C5 at schema s1 and a concrete zero-point patch. -/
theorem C5_witness :
    (∃ p, pc_patch_make (some s1) = Except.ok p ∧
      p.xmin = FVal.fin MAXFLOAT ∧ p.ymin = FVal.fin MAXFLOAT ∧
      p.xmax = FVal.fin (-MAXFLOAT) ∧ p.ymax = FVal.fin (-MAXFLOAT) ∧
      FVal.ltb p.xmax p.xmin = true) ∧
    ((pc_patch_compute_extent_uncompressed gx0 gy0 c0w).xmin = FVal.fin MAXFLOAT ∧
     (pc_patch_compute_extent_uncompressed gx0 gy0 c0w).ymin = FVal.fin MAXFLOAT ∧
     (pc_patch_compute_extent_uncompressed gx0 gy0 c0w).xmax = FVal.fin (-MAXFLOAT) ∧
     (pc_patch_compute_extent_uncompressed gx0 gy0 c0w).ymax = FVal.fin (-MAXFLOAT)) :=
  C5_reset_bounds gx0 gy0 s1 c0w (by decide) rfl

/-- Claim C6 (corrected): for a patch from pc_patch_make followed by
successful add_point calls, xmin is the fold of min over the point X
values STARTED AT MAXFLOAT (so it equals the true minimum only when that
minimum is at most MAXFLOAT), and xmax is the fold of max started at
-MAXFLOAT; symmetrically for Y.  For the empty patch, npoints is 0 and
xmin is greater than xmax. -/
theorem C6_bounds_after_adds (gx gy : GetF) (s : PCSCHEMA) (c0 : PCPATCH)
    (ps : List PCPOINT)
    (hmk : pc_patch_make (some s) = Except.ok c0)
    (hpc : ∀ p ∈ ps, p.schema.pcid = s.pcid) :
    (c0.npoints = 0 ∧ FVal.ltb c0.xmax c0.xmin = true) ∧
    (pc_patch_add_all gx gy c0 ps).xmin =
      FVal.fin (ps.foldl (fun q p => min q (gx p.schema p.data)) MAXFLOAT) ∧
    (pc_patch_add_all gx gy c0 ps).ymin =
      FVal.fin (ps.foldl (fun q p => min q (gy p.schema p.data)) MAXFLOAT) ∧
    (pc_patch_add_all gx gy c0 ps).xmax =
      FVal.fin (ps.foldl (fun q p => max q (gx p.schema p.data)) (-MAXFLOAT)) ∧
    (pc_patch_add_all gx gy c0 ps).ymax =
      FVal.fin (ps.foldl (fun q p => max q (gy p.schema p.data)) (-MAXFLOAT)) := by
  simp only [pc_patch_make] at hmk
  split at hmk
  · exact absurd hmk (by simp)
  · injection hmk with h
    subst h
    obtain ⟨b1, b2, b3, b4⟩ := add_all_bounds gx gy ps
      { schema := s
        readonly := false
        compressed := false
        npoints := 0
        maxpoints := PCPATCH_DEFAULT_MAXPOINTS
        datasize := s.size * PCPATCH_DEFAULT_MAXPOINTS
        data := List.replicate (s.size * PCPATCH_DEFAULT_MAXPOINTS) 0
        xmin := FVal.fin MAXFLOAT
        ymin := FVal.fin MAXFLOAT
        xmax := FVal.fin (-MAXFLOAT)
        ymax := FVal.fin (-MAXFLOAT) } rfl rfl (fun p hp => hpc p hp)
    refine ⟨⟨rfl, maxfloat_sentinel_lt⟩, ?_, ?_, ?_, ?_⟩
    · rw [b1]
      exact foldl_fvalMin_fin (fun p => gx p.schema p.data) ps MAXFLOAT
    · rw [b2]
      exact foldl_fvalMin_fin (fun p => gy p.schema p.data) ps MAXFLOAT
    · rw [b3]
      exact foldl_fvalMax_fin (fun p => gx p.schema p.data) ps (-MAXFLOAT)
    · rw [b4]
      exact foldl_fvalMax_fin (fun p => gy p.schema p.data) ps (-MAXFLOAT)

/-- Counterexample to claim C6 as stated: adding a single point whose X
value is 2 times MAXFLOAT (representable as a double) to a fresh patch
leaves xmin at the MAXFLOAT sentinel, which is NOT the minimum X over the
added points. -/
theorem C6_cex :
    (pc_patch_make (some s1)).toOption.map
      (fun c => (pc_patch_add_all gxBig gxBig c [pt1]).xmin) = some (FVal.fin MAXFLOAT) ∧
    FVal.fin (gxBig pt1.schema pt1.data) ≠ FVal.fin MAXFLOAT := by
  exact ⟨rfl, by decide⟩

/-- Witness for C6 at schema s1, the concrete make result and one point. -/
theorem C6_witness :
    (∀ p ∈ [pt1], p.schema.pcid = s1.pcid) ∧
    ((c0w.npoints = 0 ∧ FVal.ltb c0w.xmax c0w.xmin = true) ∧
     (pc_patch_add_all gx0 gy0 c0w [pt1]).xmin =
       FVal.fin (([pt1] : List PCPOINT).foldl (fun q p => min q (gx0 p.schema p.data)) MAXFLOAT) ∧
     (pc_patch_add_all gx0 gy0 c0w [pt1]).ymin =
       FVal.fin (([pt1] : List PCPOINT).foldl (fun q p => min q (gy0 p.schema p.data)) MAXFLOAT) ∧
     (pc_patch_add_all gx0 gy0 c0w [pt1]).xmax =
       FVal.fin (([pt1] : List PCPOINT).foldl (fun q p => max q (gx0 p.schema p.data)) (-MAXFLOAT)) ∧
     (pc_patch_add_all gx0 gy0 c0w [pt1]).ymax =
       FVal.fin (([pt1] : List PCPOINT).foldl (fun q p => max q (gy0 p.schema p.data)) (-MAXFLOAT))) :=
  ⟨by decide, C6_bounds_after_adds gx0 gy0 s1 c0w [pt1] rfl (by decide)⟩

/-- Claim C7 (corrected): from_points takes the schema of the FIRST entry
(crashing on a null first entry, see the counterexample); when the first
entry is non-null, it fails with SchemaMismatch if any later non-null
point carries a different schema, and otherwise succeeds, skipping null
entries with one warning each, with npoints equal to the number of
non-null entries; npoints plus warnings account for the whole input, so
npoints may be less than the input length. -/
theorem C7_from_points (p0 : PCPOINT) (rest : List (Option PCPOINT))
    (hs : p0.schema.size ≠ 0) :
    ((∀ q ∈ rest, ∀ p, q = some p → p.schema = p0.schema) →
      ∃ w patch, pc_patch_from_points (some p0 :: rest) = FromPointsResult.ok w patch ∧
        patch.schema = p0.schema ∧
        patch.npoints = ((some p0 :: rest).filterMap id).length ∧
        w = (some p0 :: rest).count none ∧
        patch.npoints + w = (some p0 :: rest).length) ∧
    ((∃ p, some p ∈ rest ∧ p.schema ≠ p0.schema) →
      pc_patch_from_points (some p0 :: rest) = FromPointsResult.error PCError.SchemaMismatch) := by
  constructor
  · intro huni
    have hall : ∀ q ∈ (some p0 :: rest), ∀ p, q = some p → p.schema = p0.schema := by
      intro q hq p hqp
      rcases List.mem_cons.mp hq with h1 | h1
      · rw [h1] at hqp
        rw [Option.some_inj.mp hqp.symm]
      · exact huni q h1 p hqp
    obtain ⟨bufE, hE⟩ := fpLoop_uniform p0.schema (some p0 :: rest)
      (List.replicate (p0.schema.size * (some p0 :: rest).length) 0) 0 0 hall
    refine ⟨0 + (some p0 :: rest).count none,
      { schema := p0.schema
        readonly := false
        compressed := false
        npoints := 0 + ((some p0 :: rest).filterMap id).length
        maxpoints := (some p0 :: rest).length
        datasize := 0
        data := bufE
        xmin := FVal.fin MAXFLOAT
        ymin := FVal.fin MAXFLOAT
        xmax := FVal.fin (-MAXFLOAT)
        ymax := FVal.fin (-MAXFLOAT) }, ?_, rfl, ?_, ?_, ?_⟩
    · simp only [pc_patch_from_points]
      rw [if_neg hs, hE]
    · simp
    · simp
    · have := filterMap_count_length (some p0 :: rest)
      simp only []
      omega
  · intro hmis
    obtain ⟨p, hp, hne⟩ := hmis
    have hL := fpLoop_mismatch p0.schema (some p0 :: rest)
      (List.replicate (p0.schema.size * (some p0 :: rest).length) 0) 0 0
      ⟨p, List.mem_cons_of_mem _ hp, hne⟩
    simp only [pc_patch_from_points]
    rw [if_neg hs, hL]

/-- Counterexample to claim C7 as stated: an input whose first entry is
null is not handled by skipping it; the source dereferences the first
entry unconditionally, so no patch (with npoints equal to the non-null
count) is produced. -/
theorem C7_cex :
    pc_patch_from_points [none, some pt1] = FromPointsResult.nullDeref ∧
    (pc_patch_from_points [none, some pt1]).patchOf = none :=
  ⟨rfl, rfl⟩

/-- Witness for C7 at a concrete input with one null entry among three. -/
theorem C7_witness :
    ∃ w patch,
      pc_patch_from_points [some pt1, none, some pt1b] = FromPointsResult.ok w patch ∧
      patch.schema = pt1.schema ∧
      patch.npoints = (([some pt1, none, some pt1b] : List (Option PCPOINT)).filterMap id).length ∧
      w = ([some pt1, none, some pt1b] : List (Option PCPOINT)).count none ∧
      patch.npoints + w = ([some pt1, none, some pt1b] : List (Option PCPOINT)).length :=
  (C7_from_points pt1 [none, some pt1b] (by decide)).1 (by
    intro q hq p hqp
    rcases List.mem_cons.mp hq with h1 | h1
    · rw [h1] at hqp
      cases hqp
    · rcases List.mem_cons.mp h1 with h2 | h2
      · rw [h2] at hqp
        rw [← Option.some_inj.mp hqp]
        rfl
      · simp at h2)

/-- Claim C4 (confirmed): for a schema with None compression and a buffer
whose compression tag reads PC_NONE, decode reads the point count from the
13-byte header (offset 9); it fails with SizeMismatch unless the byte
count minus 13 equals npoints times the schema point size exactly, and on
success it returns (with no errors) a patch marked compressed with
datasize equal to the byte count minus 13.  Stated for buffers that
actually contain the 13-byte header and have a size_t length. -/
theorem C4_decode_uncompressed (gx gy : GetF) (flip : FlipF) (s : PCSCHEMA)
    (wkb : List UInt8) (hc : s.compression = PC_NONE) (h13 : 13 ≤ wkb.length)
    (h64 : wkb.length < 18446744073709551616)
    (htag : readU32 wkb 5 = PC_NONE) :
    (wkb.length - 13 = s.size * readU32 wkb 9 →
      ∃ p, pc_patch_from_wkb_uncompressed gx gy flip s wkb = ([], some p) ∧
        p.compressed = true ∧ p.datasize = wkb.length - 13 ∧
        p.npoints = readU32 wkb 9) ∧
    (wkb.length - 13 ≠ s.size * readU32 wkb 9 →
      pc_patch_from_wkb_uncompressed gx gy flip s wkb = ([PCError.SizeMismatch], none)) := by
  have hsub : sizetSub wkb.length 13 = wkb.length - 13 := sizetSub_eq wkb.length h13 h64
  constructor
  · intro heq
    have hext : pc_patch_compute_extent gx gy (wkbPatchRaw flip s wkb)
        = some (pc_patch_compute_extent_uncompressed gx gy (wkbPatchRaw flip s wkb)) := by
      unfold pc_patch_compute_extent
      rw [if_pos]
      show s.compression = PC_NONE
      exact hc
    refine ⟨pc_patch_compute_extent_uncompressed gx gy (wkbPatchRaw flip s wkb), ?_, ?_, ?_, ?_⟩
    · unfold pc_patch_from_wkb_uncompressed
      rw [if_neg (by simp [htag]), if_neg (by rw [hsub]; simp [heq]), hext]
    · obtain ⟨e1, _, _, _, _, _⟩ := extent_uncompressed_proj gx gy (wkbPatchRaw flip s wkb)
      exact e1
    · obtain ⟨_, e2, _, _, _, _⟩ := extent_uncompressed_proj gx gy (wkbPatchRaw flip s wkb)
      rw [e2]
      show sizetSub wkb.length 13 = wkb.length - 13
      exact hsub
    · obtain ⟨_, _, e3, _, _, _⟩ := extent_uncompressed_proj gx gy (wkbPatchRaw flip s wkb)
      exact e3
  · intro hne
    unfold pc_patch_from_wkb_uncompressed
    rw [if_neg (by simp [htag]), if_pos (by rw [hsub]; exact hne)]

/-- Witness for C4 at schema s1 and the consistent buffer wkbGood. -/
theorem C4_witness :
    ∃ p, pc_patch_from_wkb_uncompressed gx0 gy0 flip0 s1 wkbGood = ([], some p) ∧
      p.compressed = true ∧ p.datasize = wkbGood.length - 13 ∧
      p.npoints = readU32 wkbGood 9 :=
  (C4_decode_uncompressed gx0 gy0 flip0 s1 wkbGood rfl (by decide) (by decide)
    (by decide)).1 (by decide)

/-- Claim C1 (code bug): the wire round-trip fails.  from_points on one
concrete point yields a patch with npoints 1 (first conjunct), but
decoding its encoding yields NO patch (second conjunct): the encoder
writes only the endian flag and the pcid before the data (and the patch
datasize was never assigned by from_points, so it is 0), while the decoder
expects a compression tag at offset 5 and a point count at offset 9, reads
past the 9-byte buffer, and rejects it with SizeMismatch. -/
theorem C1_roundtrip_fails :
    (pc_patch_from_points [some pt1]).patchOf.map PCPATCH.npoints = some 1 ∧
    (pc_patch_from_points [some pt1]).patchOf.map
      (fun c => (pc_patch_from_wkb gx0 gy0 flip0 s1 (pc_patch_to_wkb c)).2) = some none := by
  exact ⟨rfl, by decide⟩

/-- Claim C2 (code bug): decode on a buffer whose pcid disagrees with the
schema emits SchemaMismatch but, lacking a return after the error call,
falls through into the dispatch and returns a fully decoded patch
(npoints 1), instead of aborting with no patch. -/
theorem C2_from_wkb_falls_through :
    (pc_patch_from_wkb gx0 gy0 flip0 s1 wkbMismatch).1 = [PCError.SchemaMismatch] ∧
    (pc_patch_from_wkb gx0 gy0 flip0 s1 wkbMismatch).2.isSome = true ∧
    (pc_patch_from_wkb gx0 gy0 flip0 s1 wkbMismatch).2.map PCPATCH.npoints = some 1 := by
  exact ⟨by decide, by decide, by decide⟩
